import Mathlib

/-!
# Verification of `scripts/ci_verify.py` (IronCore-V2 CI closed-loop verifier)

Shallow embedding of the CI verification script into Lean 4, together with
proofs of the behavioural properties stated in the repository specification.

The script polls the status of a GitHub Actions run until it is `completed`
or a timeout elapses, then compares the run's job list against a set of
required job names and exits with a verdict code:

* `0` — run conclusion `success` and every required job concluded `success`;
* `1` — run completed but not green, or some required job did not succeed;
* `2` — some required job name absent from the run's job list;
* `3` — timed out waiting for the run to complete.

Python values read from JSON that may be `None` are modelled as `Option`
types.  The poll loop is modelled over an abstract clock in which every
iteration advances elapsed time by exactly the poll interval `p` (the sleep
dominates; fetches are instantaneous), so the fetch and the timeout check of
iteration `k` both observe `elapsed = k * p`.  The loop is written with
explicit fuel because the Python loop genuinely need not terminate for
degenerate parameters; all theorems supply sufficient fuel explicitly.
-/

namespace CIVerify

/-- A job record from the provider's jobs listing, restricted to the fields
the script reads: `j.get("name")` (matching key), `j.get("status")` and
`j.get("conclusion")` (both may be `None`, hence `Option`).  Job names from
the provider are taken as plain strings, as in the spec's data model. -/
structure Job where
  name : String
  status : Option String
  conclusion : Option String
deriving DecidableEq, Repr

/-- A run snapshot from the provider, restricted to the fields driving
control flow: `run.get("status")` and `run.get("conclusion")`, each possibly
`None`. -/
structure RunSnapshot where
  status : Option String
  conclusion : Option String
deriving DecidableEq, Repr

/-- `jobs_by_name = {j.get("name"): j for j in jobs}` — the dict is built by
inserting each job in list order, so a later occurrence of a name overwrites
an earlier one (last occurrence wins).  Modelled as a finite map
`String → Option Job` built by a left fold. -/
def jobsByName (jobs : List Job) : String → Option Job :=
  jobs.foldl (fun d j => fun n => if n = j.name then some j else d n) (fun _ => none)

/-- `missing = [name for name in required if name not in jobs_by_name]`. -/
def missing (required : List String) (jobs : List Job) : List String :=
  required.filter (fun name => (jobsByName jobs name).isNone)

/-- `bad = [name for name in required if name in jobs_by_name and
jobs_by_name[name].get("conclusion") != "success"]`. -/
def bad (required : List String) (jobs : List Job) : List String :=
  required.filter (fun name =>
    match jobsByName jobs name with
    | some j => decide (j.conclusion ≠ some "success")
    | none => false)

/-- The verdict computed once the run's status is `completed`:
`if missing: return 2`, then `if conclusion != "success" or bad: return 1`,
then `return 0` (lines 159–170 of the script, with Python list truthiness
meaning non-emptiness). -/
def evalCompleted (required : List String) (jobs : List Job)
    (conclusion : Option String) : Nat :=
  if missing required jobs ≠ [] then 2
  else if conclusion ≠ some "success" ∨ bad required jobs ≠ [] then 1
  else 0

/-! ## Basic lemmas about the evaluator -/

theorem jobsByName_foldl_none_iff (jobs : List Job) (n : String) :
    ∀ d : String → Option Job,
      jobs.foldl (fun d j => fun n => if n = j.name then some j else d n) d n = none ↔
        d n = none ∧ n ∉ jobs.map Job.name := by
  induction jobs with
  | nil => simp
  | cons j js ih =>
    intro d
    simp only [List.foldl_cons, List.map_cons, List.mem_cons]
    rw [ih]
    by_cases hn : n = j.name <;> simp [hn]

theorem jobsByName_eq_none_iff (jobs : List Job) (n : String) :
    jobsByName jobs n = none ↔ n ∉ jobs.map Job.name := by
  unfold jobsByName
  rw [jobsByName_foldl_none_iff]
  simp

theorem jobsByName_isSome_iff (jobs : List Job) (n : String) :
    (jobsByName jobs n).isSome ↔ n ∈ jobs.map Job.name := by
  rw [← not_iff_not, Option.not_isSome_iff_eq_none, jobsByName_eq_none_iff]

theorem evalCompleted_eq_two_iff (required : List String) (jobs : List Job)
    (c : Option String) :
    evalCompleted required jobs c = 2 ↔ missing required jobs ≠ [] := by
  unfold evalCompleted
  split_ifs with h1 h2 <;> simp [h1]

theorem evalCompleted_eq_one_iff (required : List String) (jobs : List Job)
    (c : Option String) :
    evalCompleted required jobs c = 1 ↔
      missing required jobs = [] ∧
        (c ≠ some "success" ∨ bad required jobs ≠ []) := by
  unfold evalCompleted
  split_ifs with h1 h2 <;> simp_all

theorem evalCompleted_eq_zero_iff (required : List String) (jobs : List Job)
    (c : Option String) :
    evalCompleted required jobs c = 0 ↔
      c = some "success" ∧ missing required jobs = [] ∧ bad required jobs = [] := by
  unfold evalCompleted
  split_ifs with h1 h2 <;> simp_all
  tauto

theorem evalCompleted_ne_three (required : List String) (jobs : List Job)
    (c : Option String) :
    evalCompleted required jobs c ≠ 3 := by
  unfold evalCompleted
  split_ifs <;> simp

theorem evalCompleted_le_two (required : List String) (jobs : List Job)
    (c : Option String) :
    evalCompleted required jobs c = 0 ∨ evalCompleted required jobs c = 1 ∨
      evalCompleted required jobs c = 2 := by
  unfold evalCompleted
  split_ifs <;> simp

/-! ## Claims about the evaluator -/

/-- C2: for every required set `R`, job list `J` and run conclusion, if some
name of `R` is absent from the job lookup then the verdict is `MissingJobs`,
i.e. exit code 2 — the missing check precedes and overrides the failed-job
check and the run-level conclusion check. -/
theorem missing_jobs_precedence (required : List String) (jobs : List Job)
    (c : Option String) (h : missing required jobs ≠ []) :
    evalCompleted required jobs c = 2 :=
  (evalCompleted_eq_two_iff required jobs c).mpr h

theorem missing_jobs_precedence_witness :
    missing ["Security Audit"] [] ≠ [] ∧
      evalCompleted ["Security Audit"] [] (some "success") = 2 :=
  ⟨by decide, missing_jobs_precedence ["Security Audit"] [] (some "success") (by decide)⟩

/-- C6: with an empty required set nothing can be missing and nothing can be
a failed required job, so the verdict is decided by the run conclusion
alone: exit 0 when it is `success`, exit 1 otherwise. -/
theorem empty_required_set (jobs : List Job) (c : Option String) :
    missing [] jobs = [] ∧ bad [] jobs = [] ∧
      evalCompleted [] jobs c = if c = some "success" then 0 else 1 := by
  refine ⟨rfl, rfl, ?_⟩
  unfold evalCompleted
  by_cases hc : c = some "success" <;> simp [hc, missing, bad]

/-- C7: the missing list is a sublist of the required list (and in
particular every missing name is a required name), and no missing name
occurs among the names of the fetched job list. -/
theorem missing_subset_disjoint (required : List String) (jobs : List Job) :
    (∀ n ∈ missing required jobs, n ∈ required) ∧
      (∀ n ∈ missing required jobs, n ∉ jobs.map Job.name) := by
  constructor
  · intro n hn
    exact List.mem_of_mem_filter hn
  · intro n hn
    have h := List.of_mem_filter hn
    rw [← jobsByName_eq_none_iff]
    simpa [Option.isNone_iff_eq_none] using h

theorem missing_subset_disjoint_witness :
    "Security Audit" ∈ ["Security Audit"] ∧
      "Security Audit" ∉ ([⟨"Gates (ubuntu-latest)", some "completed", some "success"⟩] :
        List Job).map Job.name := by
  have h := missing_subset_disjoint ["Security Audit"]
    [⟨"Gates (ubuntu-latest)", some "completed", some "success"⟩]
  exact ⟨h.1 "Security Audit" (by decide), h.2 "Security Audit" (by decide)⟩

theorem jobsByName_foldl_not_mem (jobs : List Job) (n : String)
    (h : n ∉ jobs.map Job.name) :
    ∀ d : String → Option Job,
      jobs.foldl (fun d j => fun n => if n = j.name then some j else d n) d n = d n := by
  induction jobs with
  | nil => simp
  | cons j js ih =>
    intro d
    simp only [List.map_cons, List.mem_cons, not_or] at h
    simp only [List.foldl_cons]
    rw [ih h.2]
    simp [h.1]

/-- C8: duplicate job names — the lookup maps a duplicated name to its last
occurrence in the job list, and the failed-required-job check judges that
name by the last occurrence's conclusion. -/
theorem duplicate_name_last_occurrence_wins (required : List String)
    (jobs₁ jobs₂ : List Job) (j : Job)
    (hlast : ∀ j' ∈ jobs₂, j'.name ≠ j.name) :
    jobsByName (jobs₁ ++ j :: jobs₂) j.name = some j ∧
      (j.name ∈ bad required (jobs₁ ++ j :: jobs₂) ↔
        j.name ∈ required ∧ j.conclusion ≠ some "success") := by
  have hnot : j.name ∉ jobs₂.map Job.name := by
    intro hmem
    rcases List.mem_map.mp hmem with ⟨j', hj', hname⟩
    exact hlast j' hj' hname
  have hlook : jobsByName (jobs₁ ++ j :: jobs₂) j.name = some j := by
    unfold jobsByName
    rw [List.foldl_append, List.foldl_cons]
    rw [jobsByName_foldl_not_mem jobs₂ j.name hnot]
    simp
  refine ⟨hlook, ?_⟩
  unfold bad
  rw [List.mem_filter]
  rw [hlook]
  simp

theorem duplicate_name_last_occurrence_wins_witness :
    jobsByName [⟨"Security Audit", some "completed", some "failure"⟩,
        ⟨"Security Audit", some "completed", some "success"⟩] "Security Audit" =
      some ⟨"Security Audit", some "completed", some "success"⟩ ∧
      ¬ "Security Audit" ∈ bad ["Security Audit"]
        [⟨"Security Audit", some "completed", some "failure"⟩,
          ⟨"Security Audit", some "completed", some "success"⟩] := by
  have h := duplicate_name_last_occurrence_wins ["Security Audit"]
    [⟨"Security Audit", some "completed", some "failure"⟩] []
    ⟨"Security Audit", some "completed", some "success"⟩ (by simp)
  exact ⟨h.1, fun hmem => (h.2.mp hmem).2 rfl⟩

/-! ## The poll loop

The script's `while True` loop (lines 122–176): fetch the run snapshot; if
its status is `"completed"`, fetch the jobs and return the evaluated
verdict; otherwise compute `elapsed` and return exit code 3 when
`elapsed > timeout_secs`; otherwise sleep `poll_secs` and iterate.

Abstract clock: the fetch and the timeout check of iteration `k` (counted
from 0) happen at `elapsed = k * p`, because exactly `k` sleeps of `p`
seconds precede them and fetches are instantaneous.  `t` and `p` are the
`--timeout-secs` and `--poll-secs` arguments (Python `int`s, so `Int`).
`trace k` is the snapshot the provider would return to the fetch of
iteration `k`; `jobs` is the job list fetched once the run is completed.
`fuel` bounds the number of iterations modelled; `none` means the loop has
not returned within `fuel` iterations. -/
def pollLoop (trace : Nat → RunSnapshot) (jobs : List Job)
    (required : List String) (t p : Int) : Nat → Nat → Option Nat
  | 0, _ => none
  | fuel + 1, k =>
    if (trace k).status = some "completed" then
      some (evalCompleted required jobs (trace k).conclusion)
    else if (k : Int) * p > t then
      some 3
    else
      pollLoop trace jobs required t p fuel (k + 1)

/-- The same loop, additionally returning the elapsed times at which
snapshot fetches were issued (the fetch of iteration `k` is issued at
elapsed `k * p`, before the status test and the timeout check of that
iteration).  `acc` accumulates fetch times already issued. -/
def pollLoopTimes (trace : Nat → RunSnapshot) (jobs : List Job)
    (required : List String) (t p : Int) :
    Nat → Nat → List Int → Option (Nat × List Int)
  | 0, _, _ => none
  | fuel + 1, k, acc =>
    if (trace k).status = some "completed" then
      some (evalCompleted required jobs (trace k).conclusion, acc ++ [(k : Int) * p])
    else if (k : Int) * p > t then
      some (3, acc ++ [(k : Int) * p])
    else
      pollLoopTimes trace jobs required t p fuel (k + 1) (acc ++ [(k : Int) * p])

/-- The first iteration index whose elapsed time `k * p` exceeds the
timeout `t`, for `0 ≤ t` and `0 < p`:  `t / p + 1` in natural division. -/
def timeoutIter (t p : Int) : Nat :=
  t.toNat / p.toNat + 1

theorem timeoutIter_exceeds (t p : Int) (ht : 0 ≤ t) (hp : 0 < p) :
    (timeoutIter t p : Int) * p > t := by
  have hb : 0 < p.toNat := by omega
  have hnat : t.toNat < (t.toNat / p.toNat + 1) * p.toNat := by
    have h1 : p.toNat * (t.toNat / p.toNat) + t.toNat % p.toNat = t.toNat :=
      Nat.div_add_mod t.toNat p.toNat
    have h2 : t.toNat % p.toNat < p.toNat := Nat.mod_lt _ hb
    have h3 : (t.toNat / p.toNat + 1) * p.toNat
        = p.toNat * (t.toNat / p.toNat) + p.toNat := by ring
    omega
  have hcast : ((timeoutIter t p : Nat) : Int) * ((p.toNat : Nat) : Int)
      > ((t.toNat : Nat) : Int) := by
    unfold timeoutIter
    exact_mod_cast hnat
  rwa [Int.toNat_of_nonneg ht, Int.toNat_of_nonneg (le_of_lt hp)] at hcast

theorem timeoutIter_not_exceeds (t p : Int) (ht : 0 ≤ t) (hp : 0 < p)
    (j : Nat) (hj : j < timeoutIter t p) : ¬ ((j : Int) * p > t) := by
  have hb : 0 < p.toNat := by omega
  have hjle : j ≤ t.toNat / p.toNat := by
    unfold timeoutIter at hj; omega
  have hnat : j * p.toNat ≤ t.toNat := by
    calc j * p.toNat ≤ t.toNat / p.toNat * p.toNat :=
          Nat.mul_le_mul_right _ hjle
      _ ≤ t.toNat := Nat.div_mul_le_self _ _
  have hcast : ((j : Nat) : Int) * ((p.toNat : Nat) : Int)
      ≤ ((t.toNat : Nat) : Int) := by exact_mod_cast hnat
  rw [Int.toNat_of_nonneg ht, Int.toNat_of_nonneg (le_of_lt hp)] at hcast
  omega

/-- If the run is first observed completed at iteration `m`, and no earlier
iteration (from `k` on) hits the timeout, the loop returns the verdict
evaluated on the snapshot of iteration `m`. -/
theorem pollLoop_completed (trace : Nat → RunSnapshot) (jobs : List Job)
    (required : List String) (t p : Int) :
    ∀ (fuel k m : Nat), k ≤ m → (trace m).status = some "completed" →
      (∀ j : Nat, k ≤ j → j < m →
        (trace j).status ≠ some "completed" ∧ ¬ ((j : Int) * p > t)) →
      m - k < fuel →
      pollLoop trace jobs required t p fuel k =
        some (evalCompleted required jobs (trace m).conclusion) := by
  intro fuel
  induction fuel with
  | zero => omega
  | succ fuel ih =>
    intro k m hkm hm hmid hfuel
    rcases Nat.eq_or_lt_of_le hkm with heq | hlt
    · subst heq
      simp [pollLoop, hm]
    · have hk := hmid k le_rfl hlt
      rw [pollLoop, if_neg hk.1, if_neg hk.2]
      exact ih (k + 1) m hlt hm
        (fun j hj1 hj2 => hmid j (by omega) hj2) (by omega)

/-- If no iteration from `k` through `m` observes a completed status, and
`m` is the first iteration (from `k` on) whose elapsed time exceeds the
timeout, the loop returns exit code 3. -/
theorem pollLoop_timeout (trace : Nat → RunSnapshot) (jobs : List Job)
    (required : List String) (t p : Int) :
    ∀ (fuel k m : Nat), k ≤ m → ((m : Int) * p > t) →
      (∀ j : Nat, k ≤ j → j ≤ m → (trace j).status ≠ some "completed") →
      (∀ j : Nat, k ≤ j → j < m → ¬ ((j : Int) * p > t)) →
      m - k < fuel →
      pollLoop trace jobs required t p fuel k = some 3 := by
  intro fuel
  induction fuel with
  | zero => omega
  | succ fuel ih =>
    intro k m hkm hm hnc hnt hfuel
    rcases Nat.eq_or_lt_of_le hkm with heq | hlt
    · subst heq
      rw [pollLoop, if_neg (hnc k le_rfl le_rfl), if_pos hm]
    · rw [pollLoop, if_neg (hnc k le_rfl (by omega)),
        if_neg (hnt k le_rfl hlt)]
      exact ih (k + 1) m hlt hm
        (fun j hj1 hj2 => hnc j (by omega) hj2)
        (fun j hj1 hj2 => hnt j (by omega) hj2) (by omega)

/-- Instrumented version of `pollLoop_timeout`: in the timeout case, the
fetches issued are exactly those of iterations `k, k+1, …, m`, at elapsed
times `k*p, (k+1)*p, …, m*p`. -/
theorem pollLoopTimes_timeout (trace : Nat → RunSnapshot) (jobs : List Job)
    (required : List String) (t p : Int) :
    ∀ (fuel k m : Nat) (acc : List Int), k ≤ m → ((m : Int) * p > t) →
      (∀ j : Nat, k ≤ j → j ≤ m → (trace j).status ≠ some "completed") →
      (∀ j : Nat, k ≤ j → j < m → ¬ ((j : Int) * p > t)) →
      m - k < fuel →
      pollLoopTimes trace jobs required t p fuel k acc =
        some (3, acc ++ (List.range' k (m - k + 1)).map (fun i : Nat => (i : Int) * p)) := by
  intro fuel
  induction fuel with
  | zero => omega
  | succ fuel ih =>
    intro k m acc hkm hm hnc hnt hfuel
    rcases Nat.eq_or_lt_of_le hkm with heq | hlt
    · subst heq
      rw [pollLoopTimes, if_neg (hnc k le_rfl le_rfl), if_pos hm]
      simp [List.range'_succ]
    · rw [pollLoopTimes, if_neg (hnc k le_rfl (by omega)),
        if_neg (hnt k le_rfl hlt)]
      rw [ih (k + 1) m (acc ++ [(k : Int) * p]) hlt hm
        (fun j hj1 hj2 => hnc j (by omega) hj2)
        (fun j hj1 hj2 => hnt j (by omega) hj2) (by omega)]
      have hlist : (List.range' k (m - k + 1)).map (fun i : Nat => (i : Int) * p)
          = (k : Int) * p :: (List.range' (k + 1) (m - (k + 1) + 1)).map
              (fun i : Nat => (i : Int) * p) := by
        have hmk : m - k + 1 = (m - (k + 1) + 1) + 1 := by omega
        rw [hmk, List.range'_succ, List.map_cons]
      rw [hlist]
      simp

/-- Whatever the loop returns, the returned fetch-time list extends the
accumulator with the current iteration's fetch time first: every returned
trace contains at least the fetch of the iteration the loop started at. -/
theorem pollLoopTimes_shape (trace : Nat → RunSnapshot) (jobs : List Job)
    (required : List String) (t p : Int) :
    ∀ (fuel k : Nat) (acc : List Int) (code : Nat) (ts : List Int),
      pollLoopTimes trace jobs required t p fuel k acc = some (code, ts) →
      ∃ rest, ts = acc ++ ((k : Int) * p) :: rest := by
  intro fuel
  induction fuel with
  | zero => intro k acc code ts h; simp [pollLoopTimes] at h
  | succ fuel ih =>
    intro k acc code ts h
    rw [pollLoopTimes] at h
    split_ifs at h with h1 h2
    · exact ⟨[], by simpa using (Prod.ext_iff.mp (Option.some.inj h)).2.symm⟩
    · exact ⟨[], by simpa using (Prod.ext_iff.mp (Option.some.inj h)).2.symm⟩
    · rcases ih (k + 1) (acc ++ [(k : Int) * p]) code ts h with ⟨rest, hrest⟩
      exact ⟨((k + 1 : Nat) : Int) * p :: rest, by simpa using hrest⟩

/-! ## Claims about the poll loop -/

/-- C3 counterexample: with timeout 1, poll interval 20 and a run that
stays `in_progress`, the loop issues its second snapshot fetch at elapsed
time 20, which already exceeds the timeout — so it is false that a fetch is
never issued at a moment when elapsed exceeds the timeout.  (The script
checks the timeout only after the fetch of each iteration.) -/
theorem fetch_after_timeout_counterexample :
    ¬ (∀ (code : Nat) (ts : List Int),
        pollLoopTimes (fun _ => ⟨some "in_progress", none⟩) [] [] 1 20 3 0 [] =
          some (code, ts) → ∀ e ∈ ts, e ≤ 1) := by
  intro h
  have h20 := h 3 [0, 20] (by decide) 20 (by simp)
  omega

/-- C3 (amended): the timeout check happens after the fetch of each
iteration: whenever, at the post-fetch check point of an iteration whose
snapshot is not completed, elapsed exceeds the timeout, the loop returns
exit code 3 immediately and issues no further fetch beyond the current
iteration's (which was already issued before the check). -/
theorem timeout_returns_without_further_fetch (trace : Nat → RunSnapshot)
    (jobs : List Job) (required : List String) (t p : Int)
    (fuel k : Nat) (acc : List Int)
    (hnc : (trace k).status ≠ some "completed")
    (hto : (k : Int) * p > t) :
    pollLoopTimes trace jobs required t p (fuel + 1) k acc =
      some (3, acc ++ [(k : Int) * p]) := by
  rw [pollLoopTimes, if_neg hnc, if_pos hto]

theorem timeout_returns_without_further_fetch_witness :
    pollLoopTimes (fun _ => ⟨some "in_progress", none⟩) [] [] 1 20 1 1 [0] =
      some (3, [0] ++ [(1 : Int) * 20]) :=
  timeout_returns_without_further_fetch (fun _ => ⟨some "in_progress", none⟩)
    [] [] 1 20 0 1 [0] (by decide) (by decide)

/-- C4 counterexample: with timeout 20 and poll interval 20, a run that
never completes produces 3 fetch iterations before exit code 3 is returned,
whereas the claim predicts `ceil(20/20) = (20 + 20 - 1) / 20 = 1`. -/
theorem timeout_fetch_count_counterexample :
    (pollLoopTimes (fun _ => ⟨some "in_progress", none⟩) [] [] 20 20 5 0 []).map
        (fun r => r.2.length) = some 3 ∧
      ¬ ((3 : Nat) = (20 + 20 - 1) / 20) := by
  constructor
  · rfl
  · decide

/-- C4 (amended): with poll interval `p > 0` and timeout `t ≥ 0`, when the
run never reaches completed the loop halts with exit code 3; the fetches
are issued at elapsed times `0, p, 2p, …`, which increase strictly, and the
number of fetch iterations performed before exit code 3 is returned is
`t / p + 2` (floor division) — not `ceil(t / p)` as claimed: all of
iterations `0 … t/p` pass the post-fetch timeout check, and iteration
`t/p + 1` fetches once more before its check fires. -/
theorem timeout_fetch_count (trace : Nat → RunSnapshot) (jobs : List Job)
    (required : List String) (t p : Int) (ht : 0 ≤ t) (hp : 0 < p)
    (hnc : ∀ k : Nat, (trace k).status ≠ some "completed") :
    pollLoopTimes trace jobs required t p (timeoutIter t p + 1) 0 [] =
      some (3, (List.range (timeoutIter t p + 1)).map (fun i : Nat => (i : Int) * p)) ∧
      ((List.range (timeoutIter t p + 1)).map
        (fun i : Nat => (i : Int) * p)).Pairwise (· < ·) ∧
      timeoutIter t p + 1 = t.toNat / p.toNat + 2 := by
  refine ⟨?_, ?_, rfl⟩
  · have h := pollLoopTimes_timeout trace jobs required t p
      (timeoutIter t p + 1) 0 (timeoutIter t p) []
      (Nat.zero_le _) (timeoutIter_exceeds t p ht hp)
      (fun j _ _ => hnc j)
      (fun j _ hj => timeoutIter_not_exceeds t p ht hp j hj)
      (by omega)
    rw [h, List.range_eq_range']
    simp
  · refine List.Pairwise.map _ (fun a b hab => ?_) (List.pairwise_lt_range _)
    have : (a : Int) < (b : Int) := by exact_mod_cast hab
    exact mul_lt_mul_of_pos_right this hp

theorem timeout_fetch_count_witness :
    pollLoopTimes (fun _ => ⟨some "in_progress", none⟩) [] [] 20 20
        (timeoutIter 20 20 + 1) 0 [] =
      some (3, (List.range (timeoutIter 20 20 + 1)).map
        (fun i : Nat => (i : Int) * 20)) :=
  (timeout_fetch_count (fun _ => ⟨some "in_progress", none⟩) [] [] 20 20
    (by decide) (by decide)
    (fun _ => by show (some "in_progress" : Option String) ≠ some "completed"; decide)).1

/-- C9: the loop always issues its first snapshot fetch before any timeout
check, so at least one fetch precedes any exit-code-3 return; and when the
very first snapshot already reports `completed`, the loop returns the
evaluated verdict — which is 0, 1 or 2, never 3 — whatever the timeout,
including zero or negative values for which elapsed already exceeds it. -/
theorem first_fetch_before_timeout (trace : Nat → RunSnapshot)
    (jobs : List Job) (required : List String) (t p : Int) (fuel : Nat) :
    ((trace 0).status = some "completed" →
      pollLoop trace jobs required t p (fuel + 1) 0 =
        some (evalCompleted required jobs (trace 0).conclusion) ∧
      (evalCompleted required jobs (trace 0).conclusion = 0 ∨
        evalCompleted required jobs (trace 0).conclusion = 1 ∨
        evalCompleted required jobs (trace 0).conclusion = 2) ∧
      pollLoop trace jobs required t p (fuel + 1) 0 ≠ some 3) ∧
    (∀ (code : Nat) (ts : List Int),
      pollLoopTimes trace jobs required t p fuel 0 [] = some (code, ts) →
        ts ≠ []) := by
  constructor
  · intro h0
    refine ⟨?_, evalCompleted_le_two required jobs (trace 0).conclusion, ?_⟩
    · rw [pollLoop, if_pos h0]
    · rw [pollLoop, if_pos h0]
      intro hc
      exact evalCompleted_ne_three required jobs (trace 0).conclusion
        (Option.some.inj hc)
  · intro code ts hts
    rcases pollLoopTimes_shape trace jobs required t p fuel 0 [] code ts hts
      with ⟨rest, hrest⟩
    simp [hrest]

theorem first_fetch_before_timeout_witness :
    pollLoop (fun _ => ⟨some "completed", some "success"⟩) [] [] (-5) 20 1 0 =
      some (evalCompleted [] [] (some "success")) :=
  ((first_fetch_before_timeout (fun _ => ⟨some "completed", some "success"⟩)
    [] [] (-5) 20 0).1 rfl).1

/-- C1: the exit code realises the verdict mapping.  Over an execution with
poll interval `p > 0` and timeout `t ≥ 0`, if the loop first observes a
completed snapshot at iteration `k₀` (which happens no later than the
timeout iteration), the exit code is 0 exactly when the run conclusion is
`success` and no required job is missing or non-successful; 1 exactly when
no required job is missing but the run is not green or some required job
did not succeed; 2 exactly when some required job is missing.  The exit
code is 3 exactly when no iteration up to the timeout iteration observes a
completed run. -/
theorem exit_code_mapping (trace : Nat → RunSnapshot) (jobs : List Job)
    (required : List String) (t p : Int) (ht : 0 ≤ t) (hp : 0 < p) :
    (∀ k₀ : Nat, k₀ ≤ timeoutIter t p → (trace k₀).status = some "completed" →
      (∀ j : Nat, j < k₀ → (trace j).status ≠ some "completed") →
      ((pollLoop trace jobs required t p (timeoutIter t p + 1) 0 = some 0 ↔
          (trace k₀).conclusion = some "success" ∧
            missing required jobs = [] ∧ bad required jobs = []) ∧
        (pollLoop trace jobs required t p (timeoutIter t p + 1) 0 = some 1 ↔
          missing required jobs = [] ∧
            ((trace k₀).conclusion ≠ some "success" ∨ bad required jobs ≠ [])) ∧
        (pollLoop trace jobs required t p (timeoutIter t p + 1) 0 = some 2 ↔
          missing required jobs ≠ []))) ∧
    (pollLoop trace jobs required t p (timeoutIter t p + 1) 0 = some 3 ↔
      ∀ k : Nat, k ≤ timeoutIter t p → (trace k).status ≠ some "completed") := by
  constructor
  · intro k₀ hk₀ hcomp hfirst
    have hr : pollLoop trace jobs required t p (timeoutIter t p + 1) 0 =
        some (evalCompleted required jobs (trace k₀).conclusion) :=
      pollLoop_completed trace jobs required t p (timeoutIter t p + 1) 0 k₀
        (Nat.zero_le _) hcomp
        (fun j _ hj2 => ⟨hfirst j hj2,
          timeoutIter_not_exceeds t p ht hp j (by omega)⟩)
        (by omega)
    rw [hr]
    simp only [Option.some.injEq]
    exact ⟨evalCompleted_eq_zero_iff required jobs _,
      evalCompleted_eq_one_iff required jobs _,
      evalCompleted_eq_two_iff required jobs _⟩
  · constructor
    · intro h3 k hk hcomp
      have hex : ∃ n, (trace n).status = some "completed" := ⟨k, hcomp⟩
      have hk₀c : (trace (Nat.find hex)).status = some "completed" :=
        Nat.find_spec hex
      have hk₀min : ∀ j : Nat, j < Nat.find hex →
          (trace j).status ≠ some "completed" :=
        fun j hj => Nat.find_min hex hj
      have hk₀le : Nat.find hex ≤ k := Nat.find_min' hex hcomp
      have hr : pollLoop trace jobs required t p (timeoutIter t p + 1) 0 =
          some (evalCompleted required jobs (trace (Nat.find hex)).conclusion) :=
        pollLoop_completed trace jobs required t p (timeoutIter t p + 1) 0
          (Nat.find hex) (Nat.zero_le _) hk₀c
          (fun j _ hj2 => ⟨hk₀min j hj2,
            timeoutIter_not_exceeds t p ht hp j (by omega)⟩)
          (by omega)
      rw [hr] at h3
      exact evalCompleted_ne_three required jobs _ (Option.some.inj h3)
    · intro hnone
      exact pollLoop_timeout trace jobs required t p (timeoutIter t p + 1) 0
        (timeoutIter t p) (Nat.zero_le _) (timeoutIter_exceeds t p ht hp)
        (fun j _ hj2 => hnone j hj2)
        (fun j _ hj2 => timeoutIter_not_exceeds t p ht hp j hj2)
        (by omega)

theorem exit_code_mapping_witness :
    pollLoop (fun _ => ⟨some "completed", some "success"⟩)
      [⟨"Security Audit", some "completed", some "success"⟩]
      ["Security Audit"] 5 2 (timeoutIter 5 2 + 1) 0 = some 0 := by
  have h := (exit_code_mapping (fun _ => ⟨some "completed", some "success"⟩)
    [⟨"Security Audit", some "completed", some "success"⟩]
    ["Security Audit"] 5 2 (by decide) (by decide)).1 0 (Nat.zero_le _) rfl
    (fun j hj => absurd hj (Nat.not_lt_zero j))
  exact h.1.mpr ⟨rfl, by decide, by decide⟩

/-! ## Run resolution and process exit status

`_latest_run_id` raises `RuntimeError` (the spec's `NotFoundError`) when
the branch has no workflow runs; transport failures raise out of
`urllib` (the spec's `TransportError`).  `main` is invoked as
`raise SystemExit(main())`: a normal return exits with the returned code,
while a propagating exception makes the Python interpreter exit with its
uncaught-exception status, which is 1. -/
inductive CIError where
  | notFound
  | transport
deriving DecidableEq, Repr

/-- `_latest_run_id`: take the first (most recent) entry of the branch's
run list, or raise when the list is empty (lines 52–62). -/
def latestRunId (workflowRuns : List Nat) : Except CIError Nat :=
  match workflowRuns with
  | [] => Except.error CIError.notFound
  | r :: _ => Except.ok r

/-- Run selection in `main` (lines 115–119): an explicit `--run-id` is used
verbatim; otherwise the latest run of the branch is resolved. -/
def resolveRun (runIdArg : Option Nat) (branchRuns : List Nat) :
    Except CIError Nat :=
  match runIdArg with
  | some rid => Except.ok rid
  | none => latestRunId branchRuns

/-- `main` as a whole: resolve the run, then poll it.  The resolved run id
does not influence the abstract trace, so it is dropped after resolution.
`Except.error` models an exception propagating out of `main`. -/
def mainModel (runIdArg : Option Nat) (branchRuns : List Nat)
    (trace : Nat → RunSnapshot) (jobs : List Job) (required : List String)
    (t p : Int) (fuel : Nat) : Except CIError (Option Nat) :=
  (resolveRun runIdArg branchRuns).map
    (fun _ => pollLoop trace jobs required t p fuel 0)

/-- Exit status of `raise SystemExit(main())` (line 180): the code `main`
returns, or the interpreter's uncaught-exception exit status 1 when an
exception propagates.  `none` models a process that never exits. -/
def processExit : Except CIError (Option Nat) → Option Nat
  | Except.ok code => code
  | Except.error _ => some 1

/-- C5 counterexample: on a branch with zero runs the resolver raises, and
the process exits with the interpreter's uncaught-exception status 1 — a
code that is not distinct from the 0–3 verdict range, contradicting the
claim that resolution/transport failures exit with a code distinct from
0, 1, 2 and 3. -/
theorem error_exit_code_counterexample :
    processExit (mainModel none [] (fun _ => ⟨some "queued", none⟩) [] []
        1800 20 3) = some 1 ∧
      ¬ ((1 : Nat) ≠ 0 ∧ (1 : Nat) ≠ 1 ∧ (1 : Nat) ≠ 2 ∧ (1 : Nat) ≠ 3) := by
  exact ⟨rfl, by decide⟩

/-- C5 (amended): when the resolver raises `NotFoundError` (branch with no
runs) or a `TransportError` propagates, the process exits with the
interpreter's uncaught-exception status 1 — non-zero, but coinciding with
the exit code of the FailedJobs/RunNotSuccessful verdict rather than being
distinct from 0–3.  In the `NotFoundError` case this happens before any
polling begins: with no branch runs, `mainModel` is an error regardless of
the poll trace, the job list and the fuel, so no snapshot fetch can have
influenced it. -/
theorem error_exit_code (e : CIError) (trace : Nat → RunSnapshot)
    (jobs : List Job) (required : List String) (t p : Int) (fuel : Nat) :
    processExit (Except.error e) = some 1 ∧ (1 : Nat) ≠ 0 ∧
      mainModel none [] trace jobs required t p fuel =
        Except.error CIError.notFound := by
  exact ⟨rfl, by decide, rfl⟩

/-! ## Credential lookup and request headers -/

/-- `token = os.environ.get("GITHUB_TOKEN") or os.environ.get("GH_TOKEN")`
(line 110).  Python's `or` yields the left operand when it is truthy (a
non-empty string) and the right operand otherwise; absent environment
variables are `None`. -/
def tokenFromEnv (githubToken ghToken : Option String) : Option String :=
  match githubToken with
  | some s => if s = "" then ghToken else some s
  | none => ghToken

/-- `_headers` (lines 35–42): the base headers, plus an `Authorization`
bearer header only when the token is truthy (present and non-empty). -/
def headers (token : Option String) : List (String × String) :=
  let base := [("Accept", "application/vnd.github+json"),
    ("User-Agent", "IronCore-CI-Verify")]
  match token with
  | some s => if s = "" then base else base ++ [("Authorization", "Bearer " ++ s)]
  | none => base

/-- C10: an empty `GITHUB_TOKEN` behaves exactly like an absent one — the
token falls back to `GH_TOKEN` either way — and whenever the resulting
token is absent or empty, no `Authorization` header is attached to a
request. -/
theorem empty_token_like_absent :
    (∀ ghToken : Option String,
      tokenFromEnv (some "") ghToken = tokenFromEnv none ghToken) ∧
    (∀ token : Option String, token = none ∨ token = some "" →
      ∀ v : String, ("Authorization", v) ∉ headers token) := by
  constructor
  · intro ghToken
    rfl
  · intro token htoken v
    rcases htoken with h | h <;> subst h <;> simp [headers]

theorem empty_token_like_absent_witness :
    ("Authorization", "Bearer ") ∉ headers (some "") :=
  empty_token_like_absent.2 (some "") (Or.inr rfl) "Bearer "

end CIVerify
